import Mathlib

/-!
Verification of the auto-assign-copilot-action repository.

This file shallowly embeds the decision logic of the repository:

* `src/helpers.js` — label/assignment policy and refactor cadence policy
  (`shouldSkipIssue`, `shouldAssignNewIssue`, `parseIssueData`,
  `findAssignableIssue`, `normalizeIssueLabels`, `hasRecentRefactorIssue`,
  `isAutoCreatedRefactorIssue`, `shouldWaitForCooldown`);
* `src/release-cleanup.js` — the release retention filter
  (`parseVersion`, `isOlderThanMonths`, `filterReleasesToKeep`);
* `workflow.js` — the assignment orchestrator (`executeWorkflow` and its
  inner functions `handleAssignment`, `handleRefactorMode`,
  `createRefactorIssueFunc`, `assignNextIssue`); the embedding follows the
  current revision of that file (the one that threads `requiredLabel` and
  `thresholdTriggeredRefactorMode`), as reproduced in the repository.

Modelling conventions:
* JavaScript timestamps (`Date` values in milliseconds) are `Int`; an
  invalid or absent date (`NaN` after `new Date(...)`) is `none`, so that
  every arithmetic comparison against it is false, exactly as NaN
  comparisons are in JavaScript.
* The calendar cutoff computed by `isOlderThanMonths(_, 1)` from the
  ambient clock (`setMonth(getMonth() - 1)`) is held abstract as a single
  `threshold : Int` parameter: for a fixed "now" it is a fixed instant,
  and a date is older than one month iff it is strictly below it.
* `Array.prototype.sort` is stable, and a stable sort is uniquely
  determined by the comparator, so the JS sort is embedded as the stable
  `List.insertionSort` with the relation "may come first".
* GraphQL / REST calls performed by `workflow.js` are read off an
  explicit environment record (`WfEnv`); mutations are collected in a
  trace list instead of being performed.
-/

/-! ### Data model shared by helpers.js and workflow.js -/

/-- A label as returned by the GraphQL API: an object with a `name`. -/
structure Label where
  name : String
deriving DecidableEq, Repr

/-- The shape of an issue's `labels` field as seen by
`normalizeIssueLabels`: either a GraphQL connection (`labels.nodes`), an
already-flattened array, or absent/anything else. -/
inductive LabelsShape where
  | nodes (l : List Label)
  | flat (l : List Label)
  | missing
deriving DecidableEq, Repr

/-- An assignee node (`{ login id }`). -/
structure Assignee where
  login : String
  id : String
deriving DecidableEq, Repr

/-- A raw open-issue node as returned by the GraphQL queries of
`workflow.js` (the `ISSUE_FIELDS` fragment): `labels` is the content of
`labels.nodes`, `trackedIssues`/`trackedInIssues` are the optional
`totalCount` values (absent field ⇒ `none`). -/
structure RawIssue where
  id : String
  number : Nat
  title : String
  url : String
  body : Option String
  assignees : List Assignee
  labels : List Label
  trackedIssues : Option Nat
  trackedInIssues : Option Nat
deriving DecidableEq, Repr

/-- The projection produced by `parseIssueData` in helpers.js. -/
structure ParsedIssue where
  id : String
  number : Nat
  title : String
  url : String
  body : String
  isAssigned : Bool
  hasSubIssues : Bool
  isSubIssue : Bool
  isRefactorIssue : Bool
  labels : List Label
deriving DecidableEq, Repr

/-- An issue currently assigned to Copilot, as consumed by
`shouldAssignNewIssue` (only its `labels` field is read, through
`normalizeIssueLabels`). -/
structure AssignedIssue where
  labels : LabelsShape
deriving DecidableEq, Repr

/-- A closed-issue node (`{ number title closedAt labels }`); `closedAt`
is the parsed timestamp in milliseconds (`none` for a missing or
unparsable date), `title` may be absent (`issue?.title` optional
chaining). -/
structure ClosedIssue where
  number : Nat
  title : Option String
  closedAt : Option Int
  labels : LabelsShape
deriving DecidableEq, Repr

/-- Return value of `shouldSkipIssue`: `{shouldSkip, reason}` with
`reason: null` encoded as `none`. -/
structure SkipDecision where
  shouldSkip : Bool
  reason : Option String
deriving DecidableEq, Repr

/-- Return value of `shouldAssignNewIssue`. -/
structure AssignDecision where
  shouldAssign : Bool
  reason : String
deriving DecidableEq, Repr

/-- Return value of `shouldWaitForCooldown`. -/
structure CooldownDecision where
  shouldWait : Bool
  reason : String
deriving DecidableEq, Repr

/-- `MS_PER_DAY = 1000 * 60 * 60 * 24` from helpers.js. -/
def msPerDay : Int := 1000 * 60 * 60 * 24

/-! ### helpers.js -/

/-- `normalizeIssueLabels` (helpers.js): `issue.labels?.nodes` if the
GraphQL shape, the array itself if already flat, `[]` otherwise. -/
def normalizeIssueLabels : LabelsShape → List Label
  | .nodes l => l
  | .flat l => l
  | .missing => []

/-- `shouldSkipIssue(issue, allowParentIssues, skipLabels)` from
helpers.js, checks in source order: assignees, sub-issues, skip labels.
The JS guard `skipLabels.length > 0 && issue.labels` is kept; a parsed
issue always carries a (possibly empty) label list. -/
def shouldSkipIssue (issue : ParsedIssue) (allowParentIssues : Bool := false)
    (skipLabels : List String := []) : SkipDecision :=
  if issue.isAssigned then
    { shouldSkip := true, reason := some "already assigned" }
  else if issue.hasSubIssues && !allowParentIssues then
    { shouldSkip := true, reason := some "has sub-issues" }
  else
    let issueLabels := issue.labels.map Label.name
    let matchedLabel :=
      if skipLabels.length > 0 then
        skipLabels.find? (fun skipLabel => issueLabels.contains skipLabel)
      else none
    match matchedLabel with
    | some l => { shouldSkip := true, reason := some ("has skip label: " ++ l) }
    | none => { shouldSkip := false, reason := none }

/-- The skip policy as worded by the specification (§4.1): evaluated in
strict order with first match winning — already-assigned, then
sub-issues (unless parent issues are allowed), then the first skip label
(in skip-list order) present on the issue. Used to state that the
implementation refines the spec. -/
def shouldSkipIssueSpec (issue : ParsedIssue) (allowParentIssues : Bool)
    (skipLabels : List String) : SkipDecision :=
  if issue.isAssigned then
    { shouldSkip := true, reason := some "already assigned" }
  else if issue.hasSubIssues && !allowParentIssues then
    { shouldSkip := true, reason := some "has sub-issues" }
  else
    match skipLabels.find? (fun s => (issue.labels.map Label.name).contains s) with
    | some l => { shouldSkip := true, reason := some ("has skip label: " ++ l) }
    | none => { shouldSkip := false, reason := none }

/-- `shouldAssignNewIssue(assignedIssues, mode, force)` from helpers.js. -/
def shouldAssignNewIssue (assignedIssues : List AssignedIssue) (mode : String)
    (force : Bool) : AssignDecision :=
  if assignedIssues.length = 0 then
    { shouldAssign := true, reason := "Copilot has no assigned issues" }
  else if force then
    { shouldAssign := true, reason := "Force flag is set" }
  else if mode = "refactor" then
    let hasRefactorIssue := assignedIssues.any (fun issue =>
      (normalizeIssueLabels issue.labels).any (fun label => label.name = "refactor"))
    if hasRefactorIssue then
      { shouldAssign := false, reason := "Copilot already has a refactor issue assigned" }
    else
      { shouldAssign := false,
        reason := "Copilot is working on other issues, skipping refactor creation" }
  else
    { shouldAssign := false, reason := "Copilot already has assigned issues and force=false" }

/-- `parseIssueData(issue)` from helpers.js: `body || ''`,
`assignees.nodes.length > 0`, `trackedIssues?.totalCount > 0`, etc. -/
def parseIssueData (issue : RawIssue) : ParsedIssue :=
  { id := issue.id
    number := issue.number
    title := issue.title
    url := issue.url
    body := issue.body.getD ""
    isAssigned := issue.assignees.length > 0
    hasSubIssues := match issue.trackedIssues with
      | some n => n > 0
      | none => false
    isSubIssue := match issue.trackedInIssues with
      | some n => n > 0
      | none => false
    isRefactorIssue := issue.labels.any (fun l => l.name = "refactor")
    labels := issue.labels }

/-- `findAssignableIssue(issues, allowParentIssues, skipLabels)` from
helpers.js: linear scan, returns the first parsed issue that
`shouldSkipIssue` does not skip.  Note the function has exactly these
three parameters; the `requiredLabel` value that workflow.js passes as a
fourth argument is silently discarded by JavaScript. -/
def findAssignableIssue (issues : List RawIssue) (allowParentIssues : Bool := false)
    (skipLabels : List String := []) : Option ParsedIssue :=
  issues.findSome? (fun issue =>
    let parsed := parseIssueData issue
    if (shouldSkipIssue parsed allowParentIssues skipLabels).shouldSkip then none
    else some parsed)

/-- `hasRecentRefactorIssue(closedIssues, count)` from helpers.js. -/
def hasRecentRefactorIssue (closedIssues : List ClosedIssue) (count : Nat := 4) : Bool :=
  match closedIssues with
  | [] => false
  | _ =>
    (closedIssues.take count).any (fun issue =>
      (normalizeIssueLabels issue.labels).any (fun label => label.name = "refactor"))

/-- Auxiliary: does the character list `pat` occur as a contiguous run at
the head of `s`? (Embeds the prefix test used by substring search.) -/
def listStartsWith : List Char → List Char → Bool
  | [], _ => true
  | _ :: _, [] => false
  | p :: ps, c :: cs => p = c && listStartsWith ps cs

/-- Auxiliary: does `pat` occur contiguously anywhere in `s`?  This is
the semantics of JavaScript `String.prototype.includes`. -/
def listContainsSeq (pat : List Char) : List Char → Bool
  | [] => listStartsWith pat []
  | c :: cs => listStartsWith pat (c :: cs) || listContainsSeq pat cs

/-- `title.includes('[AUTO]')` on strings. -/
def titleHasAutoMarker (t : String) : Bool :=
  listContainsSeq "[AUTO]".data t.data

/-- `isAutoCreatedRefactorIssue(issue)` from helpers.js:
`issue?.title?.includes('[AUTO]') ?? false`. -/
def isAutoCreatedRefactorIssue (issue : ClosedIssue) : Bool :=
  match issue.title with
  | none => false
  | some t => titleHasAutoMarker t

/-- The predicate of the `closedIssues.find(...)` callback inside
`shouldWaitForCooldown`: refactor-labeled, auto-created, and closed less
than `cooldownMs` before `now` (an invalid `closedAt` yields NaN, whose
comparisons are all false, hence `none ⇒ false`). -/
def cooldownMatch (now : Int) (cooldownMs : Int) (issue : ClosedIssue) : Bool :=
  let labels := normalizeIssueLabels issue.labels
  let hasRefactorLabel := labels.any (fun label => label.name = "refactor")
  if !hasRefactorLabel || !isAutoCreatedRefactorIssue issue then false
  else
    match issue.closedAt with
    | none => false
    | some closedAt => decide (now - closedAt < cooldownMs)

/-- The reason string built by `shouldWaitForCooldown` for the found
issue: `Math.floor` is `Int.fdiv`, and `Math.ceil(cooldownDays -
daysSinceClosed)` of an integer is the integer itself. -/
def cooldownReason (now : Int) (cooldownDays : Nat) (issue : ClosedIssue) : String :=
  let closedAt := issue.closedAt.getD 0
  let daysSinceClosed : Int := (now - closedAt).fdiv msPerDay
  let daysRemaining : Int := (cooldownDays : Int) - daysSinceClosed
  "Auto-created refactor issue #" ++ toString issue.number ++ " was closed " ++
    toString daysSinceClosed ++ " days ago. Wait " ++ toString daysRemaining ++
    " more day(s) before creating a new one."

/-- `shouldWaitForCooldown(closedIssues, cooldownDays)` from helpers.js,
with the ambient `new Date()` made an explicit `now` parameter. -/
def shouldWaitForCooldown (closedIssues : List ClosedIssue) (cooldownDays : Nat := 7)
    (now : Int := 0) : CooldownDecision :=
  match closedIssues with
  | [] => { shouldWait := false, reason := "No closed issues found" }
  | _ =>
    let cooldownMs : Int := (cooldownDays : Int) * msPerDay
    match closedIssues.find? (cooldownMatch now cooldownMs) with
    | some issue =>
      { shouldWait := true, reason := cooldownReason now cooldownDays issue }
    | none =>
      { shouldWait := false,
        reason := "No auto-created refactor issue found closed within the cooldown period" }

/-! ### release-cleanup.js -/

/-- A parsed semantic version `{ major, minor, patch }`. -/
structure Version where
  major : Nat
  minor : Nat
  patch : Nat
deriving DecidableEq, Repr

/-- Split a character list at every `'.'`, the semantics of
JavaScript `split('.')` (so `"" ↦ [""]`, `"1..3" ↦ ["1","","3"]`). -/
def splitOnDot : List Char → List (List Char)
  | [] => [[]]
  | c :: cs =>
    if c = '.' then [] :: splitOnDot cs
    else
      match splitOnDot cs with
      | [] => [[c]]
      | part :: parts => (c :: part) :: parts

/-- Does the character list match `\d+` (one or more ASCII digits)? -/
def digitsOnly (cs : List Char) : Bool :=
  !cs.isEmpty && cs.all Char.isDigit

/-- `parseInt(_, 10)` on a digit string. -/
def digitsToNat (cs : List Char) : Nat :=
  cs.foldl (fun n c => n * 10 + (c.toNat - 48)) 0

/-- `parseVersion(versionString)` from release-cleanup.js: strip one
leading `v`/`V` (`replace(/^[vV]/, '')`), then require the exact shape
`\d+.\d+.\d+`; empty input is falsy and yields `null`. -/
def parseVersion (versionString : String) : Option Version :=
  if versionString = "" then none
  else
    let cleaned :=
      match versionString.data with
      | c :: rest => if c = 'v' ∨ c = 'V' then rest else c :: rest
      | [] => []
    match splitOnDot cleaned with
    | [a, b, c] =>
      if digitsOnly a && digitsOnly b && digitsOnly c then
        some ⟨digitsToNat a, digitsToNat b, digitsToNat c⟩
      else none
    | _ => none

/-- A release record `{ tag_name, published_at }`; the publish timestamp
is `none` when missing or unparsable (NaN). -/
structure Release where
  tag_name : String
  published_at : Option Int
deriving DecidableEq, Repr

/-- A release together with its parsed version, the element type of the
`parsedReleases` array in `filterReleasesToKeep`. -/
structure PRelease where
  tag_name : String
  published_at : Option Int
  version : Version
deriving DecidableEq, Repr

/-- The `map`+`filter(version !== null)` stage of `filterReleasesToKeep`
for a single release. -/
def toParsed (r : Release) : Option PRelease :=
  (parseVersion r.tag_name).map (fun v => ⟨r.tag_name, r.published_at, v⟩)

/-- `releases.map(addVersion).filter(r => r.version !== null)`. -/
def parseAll (releases : List Release) : List PRelease :=
  releases.filterMap toParsed

/-- `isOlderThanMonths(dateString, months)` from release-cleanup.js,
specialised to the fixed cutoff it computes from the ambient clock: for
a fixed "now", `setMonth(getMonth() - months)` is one fixed instant
`threshold`, and the function returns `date < threshold` (false for a
missing or invalid date, since NaN comparisons are false). -/
def isOlderThanThreshold (threshold : Int) (date : Option Int) : Bool :=
  match date with
  | none => false
  | some d => decide (d < threshold)

/-- The sort relation of the comparator in `filterReleasesToKeep`:
`versionLe a b` iff the comparator returns `≤ 0` on `(a, b)`, i.e. `a`
may be placed before `b` (descending lexicographic on
major, minor, patch). -/
abbrev versionLe (a b : PRelease) : Prop :=
  b.version.major < a.version.major ∨
    (b.version.major = a.version.major ∧
      (b.version.minor < a.version.minor ∨
        (b.version.minor = a.version.minor ∧ b.version.patch ≤ a.version.patch)))

instance : IsTotal PRelease versionLe :=
  ⟨fun a b => by unfold versionLe; omega⟩

instance : IsTrans PRelease versionLe :=
  ⟨fun a b c hab hbc => by unfold versionLe at *; omega⟩

/-- The `.sort(comparator)` stage: JavaScript's sort is stable, and a
stable sort is uniquely determined by the comparator, so it is embedded
as the stable insertion sort over `versionLe`. -/
def sortReleases (l : List PRelease) : List PRelease :=
  l.insertionSort versionLe

/-- The distinct major versions occurring in `l` (the key set of the
`majorGroups` map; the order of this list is irrelevant because it is
re-sorted below). -/
def majorsOf (l : List PRelease) : List Nat :=
  (l.map (fun r => r.version.major)).dedup

/-- `Array.from(majorGroups.keys()).sort((a, b) => b - a)`: the distinct
majors in descending order (stable sort on a duplicate-free list of
numbers is plain descending order). -/
def sortedMajors (l : List PRelease) : List Nat :=
  (majorsOf l).insertionSort (fun a b => a ≥ b)

/-- `sortedMajors.slice(0, 3)`. -/
def topMajors (l : List PRelease) : List Nat :=
  (sortedMajors l).take 3

/-- The group of `majorGroups` for key `m`: the releases of `l` with
that major, in the order of `l` (the map is populated by one in-order
traversal). -/
def majorGroup (l : List PRelease) (m : Nat) : List PRelease :=
  l.filter (fun r => r.version.major = m)

/-- How many releases each major-version rank keeps: 3 for the latest
major (index 0), 2 for the second (index 1), 1 for the third. -/
def rankCounts : List Nat := [3, 2, 1]

/-- The per-rank keep loop: for each `(major, count)` pair take the
`count` highest releases of that major (the group is already sorted
descending) and record their tags. -/
def rankKeepTags (l : List PRelease) : List (Nat × Nat) → List String
  | [] => []
  | (m, k) :: rest =>
    ((majorGroup l m).take k).map PRelease.tag_name ++ rankKeepTags l rest

/-- Tags retained by the `topMajors.forEach` loop of
`filterReleasesToKeep` (index 0 keeps 3, index 1 keeps 2, further
indices keep 1; `topMajors` has at most 3 entries). -/
def majorKeepTags (l : List PRelease) : List String :=
  rankKeepTags l (List.zip (topMajors l) rankCounts)

/-- Tags of the protected releases: every parsed release not older than
one month (`!isOlderThanMonths(release.published_at, 1)`). -/
def youngTags (threshold : Int) (l : List PRelease) : List String :=
  (l.filter (fun r => !isOlderThanThreshold threshold r.published_at)).map
    PRelease.tag_name

/-- The `releasesToKeep` set of `filterReleasesToKeep`, as the list of
tags added to it (membership is all that is ever used). -/
def releasesToKeepTags (threshold : Int) (releases : List Release) : List String :=
  let parsed := sortReleases (parseAll releases)
  youngTags threshold parsed ++ majorKeepTags parsed

/-- `filterReleasesToKeep(releases)` from release-cleanup.js, with the
one-month cutoff made explicit: empty input short-circuits to `[]`,
otherwise the original list is filtered by membership of the tag in the
keep set (preserving the original order). -/
def filterReleasesToKeep (threshold : Int) (releases : List Release) : List Release :=
  match releases with
  | [] => []
  | _ =>
    let keep := releasesToKeepTags threshold releases
    releases.filter (fun r => keep.contains r.tag_name)

/-! ### workflow.js (assignment orchestrator) -/

/-- A `suggestedActors` node: `{ login __typename id }`. -/
structure Actor where
  login : String
  typename : String
  id : String
deriving DecidableEq, Repr

/-- The identifying info of an issue as returned by the workflow
(`{ issue: { id, number, title, url } }`). -/
structure IssueInfo where
  id : String
  number : Nat
  title : String
  url : String
deriving DecidableEq, Repr

/-- A GitHub mutation issued by the workflow (recorded instead of
performed). -/
inductive Mutation where
  | addAssignee (issueId : String) (assigneeIds : List String)
  | createIssue (title : String) (body : String) (assigneeIds : List String)
  | addLabel (issueId : String) (labelIds : List String)
deriving DecidableEq, Repr

/-- Outcome of one `executeWorkflow` run: a thrown error, a plain
`return` (no action), an assignment result `{ issue }` carrying the
parsed candidate, or a creation result `{ issue }` carrying identifying
info. -/
inductive WfResult where
  | thrown (msg : String)
  | skipped
  | assigned (issue : ParsedIssue)
  | created (issue : IssueInfo)
deriving DecidableEq, Repr

/-- The parameters of `executeWorkflow` that the embedded control flow
reads (the GitHub client and repo coordinates live in `WfEnv`). -/
structure WfParams where
  eventName : String
  mode : String
  labelOverride : Option String
  requiredLabel : Option String
  force : Bool
  dryRun : Bool
  allowParentIssues : Bool
  skipLabels : List String
  refactorThreshold : Nat
  createRefactorIssue : Bool
  refactorCooldownDays : Nat
deriving DecidableEq, Repr

/-- The external world as seen through the GitHub transport: each query
of workflow.js reads a fixed response off this record.  `closedDesc` is
the closed-issue list ordered by `UPDATED_AT` descending, of which every
closed-issue query takes a prefix; `subIssueCount` is the per-issue REST
sub-issue count (a failed lookup already folded to 0); `createdIssue` is
the server response to the `createIssue` mutation; `templateContent` is
the (always successful) result of `readRefactorIssueTemplate`; `nowISO`
is `new Date().toISOString()`; `now` is the clock read by
`shouldWaitForCooldown`. -/
structure WfEnv where
  closedDesc : List ClosedIssue
  suggestedActors : List Actor
  openIssues : List RawIssue
  refactorIssuesAsc : List RawIssue
  issuesByLabel : String → List RawIssue
  allOpenAsc : List RawIssue
  subIssueCount : Nat → Nat
  refactorLabelId : Option String
  templateContent : String
  nowISO : String
  createdIssue : IssueInfo
  now : Int

/-- `enrichWithSubIssues(issues)`: overwrite each issue's
`trackedIssues.totalCount` with the REST sub-issue count. -/
def enrichWithSubIssues (env : WfEnv) (issues : List RawIssue) : List RawIssue :=
  issues.map (fun issue => { issue with trackedIssues := some (env.subIssueCount issue.number) })

/-- Step 1's bot lookup:
`suggestedActors.nodes.find(n => n.login === 'copilot-swe-agent' && n.__typename === 'Bot')`. -/
def copilotBotOf (env : WfEnv) : Option Actor :=
  env.suggestedActors.find? (fun n => n.login = "copilot-swe-agent" && n.typename = "Bot")

/-- The title stamped on an auto-created refactor issue. -/
def autoIssueTitle (env : WfEnv) : String :=
  "refactor: codebase improvements [AUTO] - " ++ env.nowISO

/-- The mock issue returned by `createRefactorIssueFunc` in dry-run
mode. -/
def dryRunCreatedIssue (env : WfEnv) : IssueInfo :=
  { id := "dry-run-id"
    number := 0
    title := autoIssueTitle env
    url := "[DRY RUN - would create new refactor issue]" }

/-- `handleAssignment(issue, type)`: in dry-run only report, otherwise
perform the `addAssigneesToAssignable` mutation; either way return
`{ issue }`. -/
def handleAssignment (dryRun : Bool) (copilotBotId : String) (issue : ParsedIssue) :
    WfResult × List Mutation :=
  if dryRun then (.assigned issue, [])
  else (.assigned issue, [.addAssignee issue.id [copilotBotId]])

/-- `createRefactorIssueFunc(bypassCooldown)`: unless the cooldown is
bypassed, query the 20 most recent closed issues and stop if
`shouldWaitForCooldown` says to wait; then resolve the `refactor` label
(throwing if absent), read the template, stamp the `[AUTO]` title, and
either preview (dry-run) or create, assign and label the new issue (a
label-attachment failure is caught and does not undo the creation, so
the mutation trace is the same either way). -/
def createRefactorIssueFunc (p : WfParams) (env : WfEnv) (copilotBotId : String)
    (bypassCooldown : Bool) : WfResult × List Mutation :=
  let blocked :=
    if bypassCooldown then false
    else (shouldWaitForCooldown (env.closedDesc.take 20) p.refactorCooldownDays env.now).shouldWait
  if blocked then (.skipped, [])
  else
    match env.refactorLabelId with
    | none => (.thrown "Refactor label not found in repository.", [])
    | some refactorLabelId =>
      let issueBody := env.templateContent
      let issueTitle := autoIssueTitle env
      if p.dryRun then (.created (dryRunCreatedIssue env), [])
      else
        (.created env.createdIssue,
          [.createIssue issueTitle issueBody [copilotBotId],
           .addLabel env.createdIssue.id [refactorLabelId]])

/-- `handleRefactorMode(bypassCooldown)`: fetch the open
refactor-labeled issues (created-ascending), enrich them with REST
sub-issue counts, and try `helpers.findAssignableIssue` on them — the
`requiredLabel` value passed as a fourth argument is dropped because the
helper has only three parameters.  Assign the first candidate if any;
otherwise fall through to creation when `createRefactorIssue` is
enabled. -/
def handleRefactorMode (p : WfParams) (env : WfEnv) (copilotBotId : String)
    (bypassCooldown : Bool) : WfResult × List Mutation :=
  let refactorIssues := enrichWithSubIssues env env.refactorIssuesAsc
  match findAssignableIssue refactorIssues p.allowParentIssues p.skipLabels with
  | some issue => handleAssignment p.dryRun copilotBotId issue
  | none =>
    if !p.createRefactorIssue then (.skipped, [])
    else createRefactorIssueFunc p env copilotBotId bypassCooldown

/-- `assignNextIssue(labelOverride)`: walk the priority labels (the
override alone, or `bug, documentation, refactor, enhancement`), taking
the first label whose enriched open-issue list yields an assignable
candidate (again, the fourth `requiredLabel` argument is dropped by the
three-parameter helper); with no override and no candidate, fall back to
all open issues that carry none of the priority labels; with still no
candidate, fall back to refactor handling when `createRefactorIssue` is
enabled. -/
def labelPriorityOf (labelOverride : Option String) : List String :=
  match labelOverride with
  | some l => [l]
  | none => ["bug", "documentation", "refactor", "enhancement"]

/-- The candidate-selection part of `assignNextIssue`: the first
priority label whose enriched open-issue list yields an assignable
candidate, then (with no override) the fallback scan over open issues
carrying none of the priority labels. -/
def selectNextIssue (p : WfParams) (env : WfEnv) (labelOverride : Option String) :
    Option ParsedIssue :=
  let labelPriority := labelPriorityOf labelOverride
  let issueFromPriority :=
    labelPriority.findSome? (fun label =>
      findAssignableIssue (enrichWithSubIssues env (env.issuesByLabel label))
        p.allowParentIssues p.skipLabels)
  match issueFromPriority, labelOverride with
  | none, none =>
    let nonPriorityIssues := env.allOpenAsc.filter (fun issue =>
      !(normalizeIssueLabels (.nodes issue.labels)).any (fun l =>
        labelPriority.contains l.name))
    findAssignableIssue (enrichWithSubIssues env nonPriorityIssues)
      p.allowParentIssues p.skipLabels
  | found, _ => found

def assignNextIssue (p : WfParams) (env : WfEnv) (copilotBotId : String)
    (labelOverride : Option String) : WfResult × List Mutation :=
  match selectNextIssue p env labelOverride with
  | none =>
    if !p.createRefactorIssue then (.skipped, [])
    else handleRefactorMode p env copilotBotId false
  | some issue => handleAssignment p.dryRun copilotBotId issue

/-- Step 0 of `executeWorkflow`: on an issue event in `auto` mode, fetch
the last `refactorThreshold + 1` closed issues and switch to `refactor`
when none of the first `refactorThreshold` carries the label. -/
def effectiveModeOf (p : WfParams) (env : WfEnv) : String :=
  if p.eventName = "issues" ∧ p.mode = "auto" then
    let closedIssues := env.closedDesc.take (p.refactorThreshold + 1)
    if !hasRecentRefactorIssue closedIssues p.refactorThreshold then "refactor"
    else p.mode
  else p.mode

/-- Step 2 of `executeWorkflow`: filter the open issues down to those
currently assigned to the Copilot bot (by assignee `id`) and, when any
exist, consult `shouldAssignNewIssue`. -/
def proceedCheck (p : WfParams) (env : WfEnv) (copilotBotId : String)
    (effectiveMode : String) : Bool :=
  let currentIssues := env.openIssues.filter (fun issue =>
    issue.assignees.any (fun assignee => assignee.id = copilotBotId))
  if currentIssues.length > 0 then
    (shouldAssignNewIssue (currentIssues.map (fun i => ⟨.nodes i.labels⟩))
      effectiveMode p.force).shouldAssign
  else true

/-- `module.exports` of workflow.js: mode determination, bot resolution
(throwing when the Copilot bot is absent), the current-work check
through `shouldAssignNewIssue` (identity by assignee `id`), then the
per-mode routing; `thresholdTriggeredRefactorMode` holds exactly when
refactor mode was entered from `auto` on an issue event, and bypasses
the cooldown inside refactor handling. -/
def executeWorkflow (p : WfParams) (env : WfEnv) : WfResult × List Mutation :=
  let effectiveMode := effectiveModeOf p env
  match copilotBotOf env with
  | none => (.thrown "Copilot bot agent not found in suggestedActors", [])
  | some copilotBot =>
    let copilotBotId := copilotBot.id
    if !proceedCheck p env copilotBotId effectiveMode then (.skipped, [])
    else if effectiveMode = "refactor" then
      let thresholdTriggeredRefactorMode := p.eventName = "issues" && p.mode = "auto"
      handleRefactorMode p env copilotBotId thresholdTriggeredRefactorMode
    else if effectiveMode = "auto" then
      assignNextIssue p env copilotBotId p.labelOverride
    else (.thrown ("Unknown mode: " ++ effectiveMode), [])

/-! ### Concrete instances used in the theorems below -/

/-- The issue of the spec's skip-label scenario: labels
`["no-ai", "bug"]`, unassigned, no sub-issues. -/
def noAiIssue : ParsedIssue :=
  ⟨"id-noai", 5, "t", "u", "", false, false, false, false, [⟨"no-ai"⟩, ⟨"bug"⟩]⟩

/-- An issue that is both already assigned and has sub-issues. -/
def assignedParentIssue : ParsedIssue :=
  ⟨"id-ap", 6, "t", "u", "", true, true, false, false, [⟨"bug"⟩]⟩

/-- Issue #42 of the required-label workflow test: open, unassigned, no
sub-issues, labels `["bug"]` — it lacks the `copilot-ready` label. -/
def issue42 : RawIssue :=
  ⟨"issue-id-1", 42, "Test Issue Without Required Label",
    "https://github.com/test/repo/issues/42", some "Test body", [],
    [⟨"bug"⟩], some 0, some 0⟩

/-- Issue #43 of the required-label workflow test: like #42 but carrying
the `copilot-ready` label. -/
def issue43 : RawIssue :=
  ⟨"issue-id-2", 43, "Test Issue With Required Label",
    "https://github.com/test/repo/issues/43", some "Test body", [],
    [⟨"bug"⟩, ⟨"copilot-ready"⟩], some 0, some 0⟩

/-- The spec's release scenario with the one-month cutoff normalised to
`0`: `v3.1.0` two months old, `v3.0.7` five months old, `v2.3.0` eight
months old (all older than one month). -/
def releaseScenario : List Release :=
  [⟨"v3.1.0", some (-2)⟩, ⟨"v3.0.7", some (-5)⟩, ⟨"v2.3.0", some (-8)⟩]

/-- Four majors, all releases safely older than one month: exhibits the
per-rank keep counts of the implementation. -/
def releaseLadder : List Release :=
  [⟨"v4.3.0", some (-9)⟩, ⟨"v4.2.0", some (-9)⟩, ⟨"v4.1.0", some (-9)⟩, ⟨"v4.0.0", some (-9)⟩,
   ⟨"v3.2.0", some (-9)⟩, ⟨"v3.1.0", some (-9)⟩, ⟨"v3.0.0", some (-9)⟩,
   ⟨"v2.1.0", some (-9)⟩, ⟨"v2.0.0", some (-9)⟩,
   ⟨"v1.0.0", some (-9)⟩]

/-- An auto-created refactor issue whose `closedAt` lies 1 ms in the
future of the clock value `0` (e.g. clock skew between the API server
and the runner). -/
def futureAutoIssue : ClosedIssue :=
  ⟨7, some "refactor: codebase improvements [AUTO] - x", some 1, .nodes [⟨"refactor"⟩]⟩

/-- An auto-created refactor issue closed 5 ms before the clock value
`0`. -/
def pastAutoIssue : ClosedIssue :=
  ⟨3, some "refactor: codebase improvements [AUTO] - y", some (-5), .nodes [⟨"refactor"⟩]⟩

/-- A closed issue with no refactor involvement. -/
def plainClosedIssue : ClosedIssue :=
  ⟨8, some "bug: something", some 0, .nodes [⟨"bug"⟩]⟩

/-- A manually-created refactor issue (no `[AUTO]` marker), freshly
closed. -/
def manualRefactorIssue : ClosedIssue :=
  ⟨11, some "refactor: hand-written cleanup", some 0, .nodes [⟨"refactor"⟩]⟩

/-- An auto-created refactor issue freshly closed (at clock value 0). -/
def autoRefactorClosed : ClosedIssue :=
  ⟨9, some "refactor: old work [AUTO]", some 0, .nodes [⟨"refactor"⟩]⟩

/-- A window whose auto-created refactor issue sits at position 2, not
at the head. -/
def cooldownWindow : List ClosedIssue :=
  [plainClosedIssue, manualRefactorIssue, autoRefactorClosed]

/-- The Copilot bot actor node. -/
def copilotActor : Actor := ⟨"copilot-swe-agent", "Bot", "copilot-bot-id-123"⟩

/-- A closed-issue history whose four most recent entries carry no
refactor label, while an auto-created refactor issue closed "yesterday"
sits just behind them (and inside the 20-issue cooldown window). -/
def thresholdHistory : List ClosedIssue :=
  [plainClosedIssue, plainClosedIssue, plainClosedIssue, plainClosedIssue, autoRefactorClosed]

/-- A concrete environment: no open issues, no existing refactor
candidates, refactor label resolvable, Copilot bot present. -/
def envA : WfEnv :=
  { closedDesc := thresholdHistory
    suggestedActors := [copilotActor]
    openIssues := []
    refactorIssuesAsc := []
    issuesByLabel := fun _ => []
    allOpenAsc := []
    subIssueCount := fun _ => 0
    refactorLabelId := some "label-refactor-id"
    templateContent := "template body"
    nowISO := "2026-01-01T00:00:00.000Z"
    createdIssue := ⟨"new-issue-id", 77,
      "refactor: codebase improvements [AUTO] - 2026-01-01T00:00:00.000Z", "new-issue-url"⟩
    now := 0 }

/-- Parameters for an issue-closed trigger in `auto` mode. -/
def paramsA : WfParams :=
  { eventName := "issues", mode := "auto", labelOverride := none, requiredLabel := none
    force := false, dryRun := false, allowParentIssues := false, skipLabels := []
    refactorThreshold := 4, createRefactorIssue := true, refactorCooldownDays := 7 }

/-- An environment with one assignable open bug issue, for exercising
the dry-run assignment path. -/
def envB : WfEnv :=
  { envA with issuesByLabel := fun label => if label = "bug" then [issue42] else [] }

/-! ### Helper lemmas -/

/-- The empty-input early return of `filterReleasesToKeep` coincides
with filtering, so the function is one filter over the input. -/
theorem filterReleasesToKeep_eq (threshold : Int) (releases : List Release) :
    filterReleasesToKeep threshold releases =
      releases.filter (fun r => (releasesToKeepTags threshold releases).contains r.tag_name) := by
  cases releases <;> rfl

/-- `cooldownMatch` unfolded into its three conjuncts. -/
theorem cooldownMatch_iff (now ms : Int) (i : ClosedIssue) :
    cooldownMatch now ms i = true ↔
      ((normalizeIssueLabels i.labels).any (fun l => l.name = "refactor")) = true ∧
        isAutoCreatedRefactorIssue i = true ∧
        ∃ t, i.closedAt = some t ∧ now - t < ms := by
  cases href : (normalizeIssueLabels i.labels).any (fun l => l.name = "refactor") <;>
    cases hauto : isAutoCreatedRefactorIssue i <;>
    rcases hc : i.closedAt with _ | t <;>
    simp [cooldownMatch, href, hauto, hc]

/-- `shouldWaitForCooldown` waits exactly when the `find` callback
matches somewhere in the supplied window. -/
theorem shouldWait_iff_exists (issues : List ClosedIssue) (d : Nat) (now : Int) :
    (shouldWaitForCooldown issues d now).shouldWait = true ↔
      ∃ i ∈ issues, cooldownMatch now ((d : Int) * msPerDay) i = true := by
  cases issues with
  | nil => simp [shouldWaitForCooldown]
  | cons a l =>
    simp only [shouldWaitForCooldown]
    cases hf : (a :: l).find? (cooldownMatch now ((d : Int) * msPerDay)) with
    | none =>
      simp only [hf]
      constructor
      · intro h; simp at h
      · rintro ⟨i, hi, hmatch⟩
        exact absurd hmatch (by simpa using List.find?_eq_none.mp hf i hi)
    | some i =>
      simp only [hf]
      constructor
      · intro _
        exact ⟨i, List.mem_of_find?_eq_some hf, List.find?_some hf⟩
      · intro _; trivial

/-! ### C10 — the output of the release filter is a subsequence of its
input -/

/-- C10: for every input list, `filterReleasesToKeep` returns a
subsequence of the input: every output element is an input element and
the original order is preserved, with nothing synthesised, duplicated or
reordered. -/
theorem filterReleasesToKeep_sublist (threshold : Int) (releases : List Release) :
    (filterReleasesToKeep threshold releases).Sublist releases := by
  rw [filterReleasesToKeep_eq]
  exact List.filter_sublist releases

/-! ### C7 — shouldSkipIssue checks in strict order -/

/-- C7: `shouldSkipIssue` evaluates its conditions in strict order with
first match winning — any assignee wins over sub-issues, which win over
skip labels, the named skip label being the first matching one in
skip-list order — and on the concrete scenario (skip-labels
`["no-ai"]`, labels `["no-ai", "bug"]`, unassigned, no sub-issues) it
returns `{shouldSkip: true, reason: "has skip label: no-ai"}`. -/
theorem shouldSkipIssue_strict_order :
    (∀ (issue : ParsedIssue) (allow : Bool) (skips : List String),
        shouldSkipIssue issue allow skips = shouldSkipIssueSpec issue allow skips) ∧
      (∀ (issue : ParsedIssue) (allow : Bool) (skips : List String),
        issue.isAssigned = true →
          shouldSkipIssue issue allow skips = ⟨true, some "already assigned"⟩) ∧
      shouldSkipIssue noAiIssue false ["no-ai"] = ⟨true, some "has skip label: no-ai"⟩ := by
  refine ⟨fun issue allow skips => ?_, fun issue allow skips h => ?_, by decide⟩
  · cases skips <;> simp [shouldSkipIssue, shouldSkipIssueSpec]
  · simp [shouldSkipIssue, h]

/-- Witness for C7: the strict-order theorem applied at an issue that is
simultaneously assigned and sub-issue-bearing, and at the scenario
issue. -/
theorem shouldSkipIssue_strict_order_witness :
    shouldSkipIssue assignedParentIssue false [] = ⟨true, some "already assigned"⟩ ∧
      shouldSkipIssue noAiIssue true ["no-ai"] = shouldSkipIssueSpec noAiIssue true ["no-ai"] :=
  ⟨shouldSkipIssue_strict_order.2.1 assignedParentIssue false [] (by decide),
    shouldSkipIssue_strict_order.1 noAiIssue true ["no-ai"]⟩

/-! ### C6 — force overrides every other check -/

/-- C6: for every non-empty list of current assignments, `force = true`
makes `shouldAssignNewIssue` return `shouldAssign = true`, whatever the
mode and whatever the labels of the assigned issues. -/
theorem force_overrides_assignment_checks (assignedIssues : List AssignedIssue)
    (mode : String) (force : Bool) (hne : assignedIssues ≠ []) (hf : force = true) :
    (shouldAssignNewIssue assignedIssues mode force).shouldAssign = true := by
  subst hf
  cases assignedIssues with
  | nil => exact absurd rfl hne
  | cons a l => simp [shouldAssignNewIssue]

/-- Witness for C6: a refactor-labeled current assignment in refactor
mode, forced. -/
theorem force_overrides_assignment_checks_witness :
    ([(⟨.nodes [⟨"refactor"⟩]⟩ : AssignedIssue)] ≠ []) ∧
      (shouldAssignNewIssue [⟨.nodes [⟨"refactor"⟩]⟩] "refactor" true).shouldAssign = true :=
  ⟨by decide, force_overrides_assignment_checks [⟨.nodes [⟨"refactor"⟩]⟩] "refactor" true
    (by decide) rfl⟩

/-! ### C3 — the cooldown check scans the whole window -/

/-- C3: `shouldWaitForCooldown` waits exactly when some issue anywhere
in the supplied window is refactor-labeled, auto-created (title contains
`[AUTO]`) and closed within `cooldownDays` of now — so a refactor issue
without the `[AUTO]` marker never triggers it — and when it waits, the
reason reports the days elapsed and the days remaining for the first
such issue. -/
theorem shouldWaitForCooldown_window_scan (issues : List ClosedIssue) (d : Nat) (now : Int) :
    ((shouldWaitForCooldown issues d now).shouldWait = true ↔
      ∃ i ∈ issues, ((normalizeIssueLabels i.labels).any (fun l => l.name = "refactor")) = true ∧
        isAutoCreatedRefactorIssue i = true ∧
        ∃ t, i.closedAt = some t ∧ now - t < (d : Int) * msPerDay) ∧
      ((shouldWaitForCooldown issues d now).shouldWait = true →
        ∃ i, issues.find? (cooldownMatch now ((d : Int) * msPerDay)) = some i ∧
          (shouldWaitForCooldown issues d now).reason = cooldownReason now d i) := by
  constructor
  · rw [shouldWait_iff_exists]
    exact exists_congr fun i => and_congr_right fun _ => cooldownMatch_iff now _ i
  · intro h
    cases issues with
    | nil => simp [shouldWaitForCooldown] at h
    | cons a l =>
      simp only [shouldWaitForCooldown] at h ⊢
      cases hf : (a :: l).find? (cooldownMatch now ((d : Int) * msPerDay)) with
      | none => rw [hf] at h; simp at h
      | some i => exact ⟨i, rfl, rfl⟩

/-- Witness for C3: the auto-created refactor issue sits at position 2
of the window (behind a plain issue and a manually-created refactor
issue) and still triggers the wait. -/
theorem shouldWaitForCooldown_window_scan_witness :
    (shouldWaitForCooldown cooldownWindow 7 0).shouldWait = true :=
  (shouldWaitForCooldown_window_scan cooldownWindow 7 0).1.mpr
    ⟨autoRefactorClosed, by decide, by decide, by decide, 0, by decide, by decide⟩

/-! ### C5 — cooldownDays = 0 -/

/-- Counterexample for C5: with `cooldownDays = 0` the claim says
`shouldWait = false` for *every* input list, but an auto-created
refactor issue whose `closedAt` lies 1 ms in the future of the clock
(`now = 0`) satisfies `timeSinceClosed < 0` and makes the code wait. -/
theorem cooldown_zero_future_counterexample :
    (shouldWaitForCooldown [futureAutoIssue] 0 0).shouldWait = true := by decide

/-- C5 (amended): when `cooldownDays = 0` and no issue's `closedAt` lies
strictly in the future of the clock, `shouldWaitForCooldown` returns
`shouldWait = false` for every input list (the zero-width window matches
nothing). -/
theorem cooldown_zero_disabled_of_no_future (issues : List ClosedIssue) (now : Int)
    (h : ∀ i ∈ issues, ∀ t, i.closedAt = some t → t ≤ now) :
    (shouldWaitForCooldown issues 0 now).shouldWait = false := by
  cases hval : (shouldWaitForCooldown issues 0 now).shouldWait with
  | false => rfl
  | true =>
    obtain ⟨i, hi, hmatch⟩ := (shouldWait_iff_exists issues 0 now).mp hval
    obtain ⟨-, -, t, ht, hlt⟩ := (cooldownMatch_iff now _ i).mp hmatch
    have := h i hi t ht
    simp [msPerDay] at hlt
    omega

/-- Witness for C5's amended claim: a freshly-closed (not future-dated)
auto-created refactor issue does not trigger a zero-day cooldown. -/
theorem cooldown_zero_disabled_witness :
    (shouldWaitForCooldown [pastAutoIssue] 0 0).shouldWait = false :=
  cooldown_zero_disabled_of_no_future [pastAutoIssue] 0 (by
    intro i hi t ht
    simp only [List.mem_singleton] at hi
    subst hi
    simp [pastAutoIssue] at ht
    omega)

/-! ### C2 — requiredLabel is silently ignored by findAssignableIssue -/

/-- C2 (code evaluated at the failing input): `findAssignableIssue` has
no `requiredLabel` parameter — the fourth argument workflow.js passes is
dropped — so with a configured required label `copilot-ready` it still
returns issue #42, whose label set lacks that label, ahead of the
labelled issue #43. -/
theorem findAssignableIssue_ignores_requiredLabel :
    findAssignableIssue [issue42, issue43] false [] = some (parseIssueData issue42) ∧
      ((parseIssueData issue42).labels.map Label.name).contains "copilot-ready" = false := by
  decide

/-! ### C1 — the retention counts of the implementation -/

/-- C1 (code evaluated at the failing input): on the spec's scenario the
code retains `v2.3.0` (the claim and the repository's own test suite say
it must be dropped), and on a four-major ladder of old releases it keeps
3/2/1 releases of the top three majors instead of the documented
5/3/2-with-6-month-age-floor policy. -/
theorem releaseFilter_code_at_failing_input :
    filterReleasesToKeep 0 releaseScenario = releaseScenario ∧
      (filterReleasesToKeep 0 releaseLadder).map Release.tag_name =
        ["v4.3.0", "v4.2.0", "v4.1.0", "v3.2.0", "v3.1.0", "v2.1.0"] := by
  decide

/-! ### Stable-sort lemmas for the retention filter -/

/-- Inserting an element that relates to everything in the list puts it
in front. -/
theorem orderedInsert_of_forall_rel {α : Type _} {r : α → α → Prop} [DecidableRel r]
    {a : α} : ∀ {L : List α}, (∀ x ∈ L, r a x) → L.orderedInsert r a = a :: L
  | [], _ => rfl
  | b :: L, h => List.orderedInsert_of_le r L (h b (List.mem_cons_self b L))

/-- Filtering commutes with `orderedInsert` into a sorted list when the
inserted element is kept. -/
theorem filter_orderedInsert_pos {α : Type _} {r : α → α → Prop} [DecidableRel r]
    [IsTrans α r] (p : α → Bool) (a : α) (hp : p a = true) :
    ∀ (L : List α), L.Sorted r →
      (L.orderedInsert r a).filter p = (L.filter p).orderedInsert r a := by
  intro L
  induction L with
  | nil => intro _; simp [hp]
  | cons b L ih =>
    intro hs
    by_cases hr : r a b
    · rw [List.orderedInsert_of_le r L hr]
      have hall : ∀ x ∈ (b :: L).filter p, r a x := by
        intro x hx
        rcases List.mem_cons.mp (List.mem_of_mem_filter hx) with hx' | hx'
        · exact hx' ▸ hr
        · exact IsTrans.trans a b x hr (List.rel_of_sorted_cons hs x hx')
      rw [orderedInsert_of_forall_rel hall, List.filter_cons, if_pos hp]
    · have hrec := ih hs.of_cons
      cases hpb : p b with
      | true =>
        simp only [List.orderedInsert, if_neg hr, List.filter_cons, hpb, if_pos, hrec]
      | false =>
        simp only [List.orderedInsert, if_neg hr, List.filter_cons, hpb, hrec]
        simp

/-- Filtering out the inserted element removes it again (no sortedness
needed). -/
theorem filter_orderedInsert_neg {α : Type _} {r : α → α → Prop} [DecidableRel r]
    (p : α → Bool) (a : α) (hp : p a = false) :
    ∀ (L : List α), (L.orderedInsert r a).filter p = L.filter p := by
  intro L
  induction L with
  | nil => simp [hp]
  | cons b L ih =>
    by_cases hr : r a b
    · rw [List.orderedInsert_of_le r L hr, List.filter_cons, if_neg (by simp [hp])]
    · cases hpb : p b with
      | true =>
        simp only [List.orderedInsert, if_neg hr, List.filter_cons, hpb, ih]
      | false =>
        simp only [List.orderedInsert, if_neg hr, List.filter_cons, hpb, ih]

/-- A stable sort commutes with filtering: filtering the sorted list is
sorting the filtered list. -/
theorem filter_insertionSort {α : Type _} {r : α → α → Prop} [DecidableRel r]
    [IsTotal α r] [IsTrans α r] (p : α → Bool) :
    ∀ (l : List α), (l.insertionSort r).filter p = (l.filter p).insertionSort r := by
  intro l
  induction l with
  | nil => rfl
  | cons a l ih =>
    cases hp : p a with
    | true =>
      rw [show (a :: l).insertionSort r = (l.insertionSort r).orderedInsert r a from rfl,
        filter_orderedInsert_pos p a hp _ (List.sorted_insertionSort r l), ih,
        List.filter_cons, if_pos hp]
      rfl
    | false =>
      rw [show (a :: l).insertionSort r = (l.insertionSort r).orderedInsert r a from rfl,
        filter_orderedInsert_neg p a hp, ih, List.filter_cons, if_neg (by simp [hp])]

/-! ### Structure of the keep set -/

/-- Membership in a list of strings via `contains`. -/
theorem contains_iff_mem {l : List String} {s : String} : l.contains s = true ↔ s ∈ l := by
  simp

/-- A tag produced by `toParsed` is the release's tag. -/
theorem toParsed_tag {r : Release} {pr : PRelease} (h : toParsed r = some pr) :
    pr.tag_name = r.tag_name := by
  unfold toParsed at h
  cases hv : parseVersion r.tag_name with
  | none => rw [hv] at h; simp at h
  | some v => rw [hv] at h; simp at h; rw [← h]

/-- A parsed release records the parse of its own tag. -/
theorem toParsed_version {r : Release} {pr : PRelease} (h : toParsed r = some pr) :
    parseVersion pr.tag_name = some pr.version := by
  have htag := toParsed_tag h
  unfold toParsed at h
  cases hv : parseVersion r.tag_name with
  | none => rw [hv] at h; simp at h
  | some v => rw [hv] at h; simp at h; rw [htag, hv, ← h]

/-- A parsed release's published timestamp is the release's. -/
theorem toParsed_published {r : Release} {pr : PRelease} (h : toParsed r = some pr) :
    pr.published_at = r.published_at := by
  unfold toParsed at h
  cases hv : parseVersion r.tag_name with
  | none => rw [hv] at h; simp at h
  | some v => rw [hv] at h; simp at h; rw [← h]

/-- Membership in `parseAll`. -/
theorem mem_parseAll {rs : List Release} {pr : PRelease} :
    pr ∈ parseAll rs ↔ ∃ r ∈ rs, toParsed r = some pr := by
  simp [parseAll, List.mem_filterMap]

/-- A tag-based filter commutes with the parse stage. -/
theorem parseAll_filter_tag (K : List String) (rs : List Release) :
    parseAll (rs.filter (fun r => K.contains r.tag_name)) =
      (parseAll rs).filter (fun pr => K.contains pr.tag_name) := by
  induction rs with
  | nil => rfl
  | cons r rs ih =>
    cases hv : toParsed r with
    | none =>
      cases hk : K.contains r.tag_name with
      | true =>
        simp only [parseAll, List.filter_cons, hk, if_pos trivial, List.filterMap_cons, hv]
        exact ih
      | false =>
        simp only [parseAll, List.filter_cons, hk, List.filterMap_cons, hv]
        simp only [Bool.false_eq_true, if_false]
        exact ih
    | some pr =>
      have htag := toParsed_tag hv
      cases hk : K.contains r.tag_name with
      | true =>
        simp only [parseAll, List.filter_cons, hk, if_pos trivial, List.filterMap_cons, hv,
          List.filter_cons, htag]
        simp only [parseAll] at ih
        rw [ih]
      | false =>
        simp only [parseAll, List.filter_cons, hk, List.filterMap_cons, hv, htag]
        simp only [Bool.false_eq_true, if_false]
        simp only [parseAll] at ih
        rw [ih]

/-- Sorting the tag-filtered parse of a list is filtering its sorted
parse (stability of the sort). -/
theorem sortReleases_filter_tag (K : List String) (rs : List Release) :
    sortReleases (parseAll (rs.filter (fun r => K.contains r.tag_name))) =
      (sortReleases (parseAll rs)).filter (fun pr => K.contains pr.tag_name) := by
  rw [parseAll_filter_tag, sortReleases, sortReleases, filter_insertionSort]

/-- Membership in `sortedMajors`. -/
theorem mem_sortedMajors {l : List PRelease} {m : Nat} :
    m ∈ sortedMajors l ↔ ∃ pr ∈ l, pr.version.major = m := by
  simp [sortedMajors, majorsOf]

/-- The distinct-major list is strictly descending. -/
theorem sortedMajors_strictDesc (l : List PRelease) :
    (sortedMajors l).Pairwise (· > ·) := by
  have hs : (sortedMajors l).Pairwise (fun a b : Nat => a ≥ b) :=
    List.sorted_insertionSort _ _
  have hn : (sortedMajors l).Nodup :=
    ((List.perm_insertionSort _ _).nodup_iff).mpr (List.nodup_dedup _)
  exact (hs.and hn).imp (fun h => lt_of_le_of_ne h.1 (Ne.symm h.2))

/-- Membership in the per-rank keep loop. -/
theorem mem_rankKeepTags {l : List PRelease} {t : String} :
    ∀ {pairs : List (Nat × Nat)},
      t ∈ rankKeepTags l pairs ↔
        ∃ mk ∈ pairs, t ∈ ((majorGroup l mk.1).take mk.2).map PRelease.tag_name
  | [] => by simp [rankKeepTags]
  | (m, k) :: pairs => by
    simp only [rankKeepTags, List.mem_append, mem_rankKeepTags, List.mem_cons]
    constructor
    · rintro (h | ⟨mk, hmk, hmem⟩)
      · exact ⟨(m, k), Or.inl rfl, h⟩
      · exact ⟨mk, Or.inr hmk, hmem⟩
    · rintro ⟨mk, hmk | hmk, hmem⟩
      · subst hmk; exact Or.inl hmem
      · exact Or.inr ⟨mk, hmk, hmem⟩

/-- Membership in `youngTags` (introduction form). -/
theorem mem_youngTags_intro {th : Int} {l : List PRelease} {pr : PRelease}
    (hmem : pr ∈ l) (hy : isOlderThanThreshold th pr.published_at = false) :
    pr.tag_name ∈ youngTags th l := by
  simp only [youngTags, List.mem_map]
  exact ⟨pr, List.mem_filter.mpr ⟨hmem, by simp [hy]⟩, rfl⟩

/-- Membership in `youngTags` (elimination form). -/
theorem mem_youngTags_elim {th : Int} {l : List PRelease} {t : String}
    (h : t ∈ youngTags th l) :
    ∃ pr ∈ l, isOlderThanThreshold th pr.published_at = false ∧ pr.tag_name = t := by
  simp only [youngTags, List.mem_map] at h
  obtain ⟨pr, hpr, htag⟩ := h
  have := List.mem_filter.mp hpr
  exact ⟨pr, this.1, by simpa using this.2, htag⟩

/-- Every member of a top-three major's kept prefix has its tag in the
keep set. -/
theorem mem_majorKeepTags_of_take {l : List PRelease} {m k : Nat} {x : PRelease}
    (hzip : (m, k) ∈ List.zip (topMajors l) rankCounts)
    (hx : x ∈ (majorGroup l m).take k) :
    x.tag_name ∈ majorKeepTags l := by
  exact mem_rankKeepTags.mpr ⟨(m, k), hzip, List.mem_map.mpr ⟨x, hx, rfl⟩⟩

/-- Strictly descending lists with the same top elements have the same
`take`: if every element of `xs` occurs in `ys` and the first `n`
elements of `ys` all occur in `xs`, the two prefixes coincide. -/
theorem take_eq_take_of_strictDesc :
    ∀ (n : Nat) (xs ys : List Nat), xs.Pairwise (· > ·) → ys.Pairwise (· > ·) →
      (∀ a ∈ xs, a ∈ ys) → (∀ a ∈ ys.take n, a ∈ xs) → xs.take n = ys.take n := by
  intro n
  induction n with
  | zero => intro xs ys _ _ _ _; rfl
  | succ n ih =>
    intro xs ys hxs hys hsub htake
    cases ys with
    | nil =>
      have hx : xs = [] :=
        List.eq_nil_iff_forall_not_mem.mpr (fun a ha => by simpa using hsub a ha)
      rw [hx]
    | cons y ys =>
      cases xs with
      | nil => exact absurd (htake y (by simp [List.take_succ_cons])) (by simp)
      | cons x xs =>
        have hym : y ∈ x :: xs := htake y (by simp [List.take_succ_cons])
        have hxm : x ∈ y :: ys := hsub x (List.mem_cons_self x xs)
        have hxy : x = y := by
          rcases List.mem_cons.mp hym with h1 | h1
          · exact h1.symm
          rcases List.mem_cons.mp hxm with h2 | h2
          · exact h2
          have hgt1 : x > y := (List.pairwise_cons.mp hxs).1 y h1
          have hgt2 : y > x := (List.pairwise_cons.mp hys).1 x h2
          omega
        subst hxy
        rw [List.take_succ_cons, List.take_succ_cons]
        congr 1
        apply ih xs ys (List.pairwise_cons.mp hxs).2 (List.pairwise_cons.mp hys).2
        · intro a ha
          rcases List.mem_cons.mp (hsub a (List.mem_cons_of_mem x ha)) with h1 | h1
          · have := (List.pairwise_cons.mp hxs).1 a ha
            omega
          · exact h1
        · intro a ha
          have hmem : a ∈ x :: xs := by
            apply htake a
            rw [List.take_succ_cons]
            exact List.mem_cons_of_mem x ha
          have hay : x > a := (List.pairwise_cons.mp hys).1 a (List.take_subset n ys ha)
          rcases List.mem_cons.mp hmem with h1 | h1
          · omega
          · exact h1

/-- Membership is preserved by the release sort. -/
theorem mem_sortReleases {l : List PRelease} {x : PRelease} :
    x ∈ sortReleases l ↔ x ∈ l :=
  List.mem_insertionSort _

/-- Filtering by a release predicate commutes with grouping by major. -/
theorem majorGroup_filter (P : List PRelease) (F : PRelease → Bool) (m : Nat) :
    majorGroup (P.filter F) m = (majorGroup P m).filter F :=
  List.filter_comm _ _ _

/-- Filtering keeps an untouched prefix: if every element of the first
`k` positions satisfies the predicate, taking `k` of the filtered list
is taking `k` of the original. -/
theorem take_filter_of_all {α : Type _} (p : α → Bool) :
    ∀ (k : Nat) (l : List α), (∀ x ∈ l.take k, p x = true) →
      (l.filter p).take k = l.take k := by
  intro k
  induction k with
  | zero => intro l _; rfl
  | succ k ih =>
    intro l h
    cases l with
    | nil => rfl
    | cons a l =>
      have hpa : p a = true := h a (by simp [List.take_succ_cons])
      rw [List.filter_cons, if_pos hpa, List.take_succ_cons, List.take_succ_cons]
      exact congrArg (a :: ·)
        (ih l (fun x hx => h x (by rw [List.take_succ_cons]; exact List.mem_cons_of_mem a hx)))

/-- When every release kept by the per-rank loop survives a filter, the
top three majors survive it unchanged. -/
theorem topMajors_filter (P : List PRelease) (F : PRelease → Bool)
    (H : ∀ m k, (m, k) ∈ List.zip (topMajors P) rankCounts →
      ∀ x ∈ (majorGroup P m).take k, F x = true) :
    topMajors (P.filter F) = topMajors P := by
  unfold topMajors
  apply take_eq_take_of_strictDesc 3 _ _ (sortedMajors_strictDesc _) (sortedMajors_strictDesc _)
  · intro a ha
    obtain ⟨pr, hpr, hmaj⟩ := mem_sortedMajors.mp ha
    exact mem_sortedMajors.mpr ⟨pr, List.mem_of_mem_filter hpr, hmaj⟩
  · intro a ha
    have hatop : a ∈ topMajors P := ha
    have hlen : (topMajors P).length ≤ rankCounts.length := by
      have := List.length_take_le 3 (sortedMajors P)
      simpa [topMajors, rankCounts] using this
    have hmapfst : a ∈ (List.zip (topMajors P) rankCounts).map Prod.fst := by
      rw [List.map_fst_zip (topMajors P) rankCounts hlen]
      exact hatop
    obtain ⟨mk, hmk, hfst⟩ := List.mem_map.mp hmapfst
    obtain ⟨m, k⟩ := mk
    have hm : m = a := hfst
    rw [hm] at hmk
    have hmemS : a ∈ sortedMajors P := List.take_subset 3 _ hatop
    obtain ⟨pr, hprP, hprm⟩ := mem_sortedMajors.mp hmemS
    have hg : pr ∈ majorGroup P a := List.mem_filter.mpr ⟨hprP, by simp [hprm]⟩
    have hk1 : 1 ≤ k := by
      have := (List.of_mem_zip hmk).2
      simp only [rankCounts, List.mem_cons, List.not_mem_nil, or_false] at this
      rcases this with rfl | rfl | rfl <;> omega
    cases hgr : majorGroup P a with
    | nil => rw [hgr] at hg; exact absurd hg (List.not_mem_nil pr)
    | cons g0 gs =>
      have hx : g0 ∈ (majorGroup P a).take k := by
        rw [hgr]
        cases k with
        | zero => omega
        | succ k => rw [List.take_succ_cons]; exact List.mem_cons_self g0 _
      have hxF : F g0 = true := H a k hmk g0 hx
      have hxP : g0 ∈ P := List.mem_of_mem_filter (List.take_subset _ _ hx)
      have hxm : g0.version.major = a := by
        have := List.mem_filter.mp (List.take_subset _ _ hx)
        simpa using this.2
      exact mem_sortedMajors.mpr ⟨g0, List.mem_filter.mpr ⟨hxP, hxF⟩, hxm⟩

/-- With `K` an arbitrary keep list that contains every per-rank keep
tag of the sorted parse, any tag of the keep set computed from `rs` that
also lies in `K` is still in the keep set computed from the `K`-filtered
list. -/
theorem keepTags_superset (th : Int) (rs : List Release) (K : List String) (r : Release)
    (hmajor : ∀ t ∈ majorKeepTags (sortReleases (parseAll rs)), t ∈ K)
    (hk : r.tag_name ∈ youngTags th (sortReleases (parseAll rs)) ++
      majorKeepTags (sortReleases (parseAll rs)))
    (hrK : r.tag_name ∈ K) :
    r.tag_name ∈ releasesToKeepTags th (rs.filter (fun x => K.contains x.tag_name)) := by
  have hsort := sortReleases_filter_tag K rs
  have hHyp : ∀ m k,
      (m, k) ∈ List.zip (topMajors (sortReleases (parseAll rs))) rankCounts →
      ∀ x ∈ (majorGroup (sortReleases (parseAll rs)) m).take k,
        (fun pr : PRelease => K.contains pr.tag_name) x = true := by
    intro m k hmk x hx
    show K.contains x.tag_name = true
    rw [contains_iff_mem]
    exact hmajor _ (mem_majorKeepTags_of_take hmk hx)
  simp only [releasesToKeepTags, hsort]
  rcases List.mem_append.mp hk with hy | hm
  · obtain ⟨pr, hprP, hyoung, htag⟩ := mem_youngTags_elim hy
    have hFpr : K.contains pr.tag_name = true := by
      rw [contains_iff_mem, htag]
      exact hrK
    have hpr2 : pr ∈ (sortReleases (parseAll rs)).filter
        (fun pr => K.contains pr.tag_name) :=
      List.mem_filter.mpr ⟨hprP, hFpr⟩
    exact List.mem_append_left _ (htag ▸ mem_youngTags_intro hpr2 hyoung)
  · obtain ⟨⟨m, k⟩, hzip, hmem⟩ := mem_rankKeepTags.mp hm
    have htop := topMajors_filter (sortReleases (parseAll rs))
      (fun pr => K.contains pr.tag_name) hHyp
    have hgroup : (majorGroup ((sortReleases (parseAll rs)).filter
          (fun pr => K.contains pr.tag_name)) m).take k =
        (majorGroup (sortReleases (parseAll rs)) m).take k := by
      rw [majorGroup_filter]
      exact take_filter_of_all _ k _ (fun x hx => hHyp m k hzip x hx)
    apply List.mem_append_right
    apply mem_rankKeepTags.mpr
    refine ⟨(m, k), ?_, ?_⟩
    · rw [htop]
      exact hzip
    · show r.tag_name ∈ ((majorGroup ((sortReleases (parseAll rs)).filter
          (fun pr => K.contains pr.tag_name)) m).take k).map PRelease.tag_name
      rw [hgroup]
      exact hmem

/-- Every tag the keep set retains from the input is retained again when
the keep set is recomputed from the filtered output. -/
theorem keepTags_preserved (th : Int) (rs : List Release) (r : Release)
    (hr : r ∈ rs)
    (hk : (releasesToKeepTags th rs).contains r.tag_name = true) :
    (releasesToKeepTags th
        (rs.filter (fun x => (releasesToKeepTags th rs).contains x.tag_name))).contains
      r.tag_name = true := by
  rw [contains_iff_mem] at hk ⊢
  apply keepTags_superset th rs (releasesToKeepTags th rs) r
  · intro t ht
    simp only [releasesToKeepTags]
    exact List.mem_append_right _ ht
  · simpa only [releasesToKeepTags] using hk
  · exact hk

/-! ### C9 — the release filter is idempotent -/

/-- C9: with "now" held fixed and tag names distinct, applying
`filterReleasesToKeep` to its own output returns that output
unchanged. -/
theorem filterReleasesToKeep_idempotent (th : Int) (rs : List Release)
    (hnd : (rs.map Release.tag_name).Nodup) :
    filterReleasesToKeep th (filterReleasesToKeep th rs) = filterReleasesToKeep th rs := by
  clear hnd
  rw [filterReleasesToKeep_eq th rs, filterReleasesToKeep_eq th]
  apply List.filter_eq_self.mpr
  intro r hrmem
  have h := List.mem_filter.mp hrmem
  exact keepTags_preserved th rs r h.1 h.2

/-- Witness for C9: re-filtering the four-major ladder (distinct tags)
returns the first filtering unchanged. -/
theorem filterReleasesToKeep_idempotent_witness :
    (releaseLadder.map Release.tag_name).Nodup ∧
      filterReleasesToKeep 0 (filterReleasesToKeep 0 releaseLadder) =
        filterReleasesToKeep 0 releaseLadder :=
  ⟨by decide, filterReleasesToKeep_idempotent 0 releaseLadder (by decide)⟩

/-! ### Workflow lemmas for dry-run and cooldown precedence -/

/-- Dry-run behaviour of `createRefactorIssueFunc`: no mutations, and
the result is either the same decision the real run takes (skip or
throw) or the dry-run preview issue. -/
theorem createRefactorIssueFunc_dry (p : WfParams) (env : WfEnv) (cid : String)
    (b : Bool) (hd : p.dryRun = true) :
    (createRefactorIssueFunc p env cid b).2 = [] ∧
      ((createRefactorIssueFunc p env cid b).1 =
          (createRefactorIssueFunc { p with dryRun := false } env cid b).1 ∨
        (createRefactorIssueFunc p env cid b).1 = .created (dryRunCreatedIssue env)) := by
  cases b with
  | true =>
    cases hl : env.refactorLabelId with
    | none => simp [createRefactorIssueFunc, hl]
    | some lid => simp [createRefactorIssueFunc, hl, hd]
  | false =>
    cases hw : (shouldWaitForCooldown (env.closedDesc.take 20) p.refactorCooldownDays
        env.now).shouldWait with
    | true => simp [createRefactorIssueFunc, hw]
    | false =>
      cases hl : env.refactorLabelId with
      | none => simp [createRefactorIssueFunc, hl, hw]
      | some lid => simp [createRefactorIssueFunc, hl, hw, hd]

/-- Dry-run behaviour of `handleRefactorMode`. -/
theorem handleRefactorMode_dry (p : WfParams) (env : WfEnv) (cid : String)
    (b : Bool) (hd : p.dryRun = true) :
    (handleRefactorMode p env cid b).2 = [] ∧
      ((handleRefactorMode p env cid b).1 =
          (handleRefactorMode { p with dryRun := false } env cid b).1 ∨
        (handleRefactorMode p env cid b).1 = .created (dryRunCreatedIssue env)) := by
  cases hfind : findAssignableIssue (enrichWithSubIssues env env.refactorIssuesAsc)
      p.allowParentIssues p.skipLabels with
  | some issue => simp [handleRefactorMode, hfind, handleAssignment, hd]
  | none =>
    cases hc : p.createRefactorIssue with
    | false => simp [handleRefactorMode, hfind, hc]
    | true =>
      have := createRefactorIssueFunc_dry p env cid b hd
      simpa [handleRefactorMode, hfind, hc] using this

/-- The selection step never reads `dryRun`. -/
theorem selectNextIssue_update_dryRun (p : WfParams) (b : Bool) (env : WfEnv)
    (lo : Option String) :
    selectNextIssue { p with dryRun := b } env lo = selectNextIssue p env lo := rfl

/-- Dry-run behaviour of `assignNextIssue`. -/
theorem assignNextIssue_dry (p : WfParams) (env : WfEnv) (cid : String)
    (lo : Option String) (hd : p.dryRun = true) :
    (assignNextIssue p env cid lo).2 = [] ∧
      ((assignNextIssue p env cid lo).1 =
          (assignNextIssue { p with dryRun := false } env cid lo).1 ∨
        (assignNextIssue p env cid lo).1 = .created (dryRunCreatedIssue env)) := by
  cases hsel : selectNextIssue p env lo with
  | some issue =>
    have hw : selectNextIssue { p with dryRun := false } env lo = some issue := by
      rw [selectNextIssue_update_dryRun]; exact hsel
    simp only [assignNextIssue, hsel, hw]
    simp [handleAssignment, hd]
  | none =>
    have hw : selectNextIssue { p with dryRun := false } env lo = none := by
      rw [selectNextIssue_update_dryRun]; exact hsel
    simp only [assignNextIssue, hsel, hw]
    cases hc : p.createRefactorIssue with
    | false => simp
    | true => simpa [hc] using handleRefactorMode_dry p env cid false hd

/-! ### C8 — dry-run performs no mutations -/

/-- C8: with `dryRun = true` no mutation is issued at all (no assignee
added, no issue created, no label attached), while every decision still
executes: the run's outcome is the outcome the non-dry run would report
— in particular an assigned candidate's `{ issue }` is returned
unchanged — except that refactor-issue creation reports the dry-run
preview placeholder instead of mutating. -/
theorem dryRun_performs_no_mutations (p : WfParams) (env : WfEnv) (hd : p.dryRun = true) :
    (executeWorkflow p env).2 = [] ∧
      ((executeWorkflow p env).1 = (executeWorkflow { p with dryRun := false } env).1 ∨
        (executeWorkflow p env).1 = .created (dryRunCreatedIssue env)) := by
  have heff : effectiveModeOf { p with dryRun := false } env = effectiveModeOf p env := rfl
  cases hbot : copilotBotOf env with
  | none => simp [executeWorkflow, hbot]
  | some bot =>
    have hpc : proceedCheck { p with dryRun := false } env bot.id
        (effectiveModeOf p env) = proceedCheck p env bot.id (effectiveModeOf p env) := rfl
    simp only [executeWorkflow, hbot, heff, hpc]
    cases hq : proceedCheck p env bot.id (effectiveModeOf p env) with
    | false => simp
    | true =>
      by_cases hm1 : effectiveModeOf p env = "refactor"
      · simp only [hm1, Bool.not_true, if_neg, if_pos, Bool.false_eq_true, if_false, if_true]
        simpa using handleRefactorMode_dry p env bot.id
          (p.eventName = "issues" && p.mode = "auto") hd
      · by_cases hm2 : effectiveModeOf p env = "auto"
        · simp only [hm1, hm2]
          simpa using assignNextIssue_dry p env bot.id p.labelOverride hd
        · simp [hm1, hm2]

/-- Witness for C8: a dry run against an environment with an assignable
bug issue performs no mutations. -/
theorem dryRun_performs_no_mutations_witness :
    (executeWorkflow { paramsA with dryRun := true } envB).2 = [] ∧
      ((executeWorkflow { paramsA with dryRun := true } envB).1 =
          (executeWorkflow { { paramsA with dryRun := true } with dryRun := false } envB).1 ∨
        (executeWorkflow { paramsA with dryRun := true } envB).1 =
          .created (dryRunCreatedIssue envB)) :=
  dryRun_performs_no_mutations { paramsA with dryRun := true } envB rfl

/-! ### C4 — threshold-triggered refactor mode bypasses the cooldown -/

/-- C4: on an issue-closed trigger in `auto` mode, when none of the
first `refactorThreshold` of the fetched `refactorThreshold + 1` closed
issues carries the refactor label, the run switches to refactor mode
and, finding no assignable refactor issue, creates a new refactor issue
*without* consulting the cooldown — even though `shouldWaitForCooldown`
over the 20-issue window says to wait; with the same environment but
explicitly requested `refactor` mode, the ordinary cooldown check
applies and the same recent auto-closure blocks creation. -/
theorem threshold_refactor_bypasses_cooldown (p : WfParams) (env : WfEnv) (bot : Actor)
    (lid : String)
    (hev : p.eventName = "issues")
    (hmode : p.mode = "auto")
    (hthr : hasRecentRefactorIssue (env.closedDesc.take (p.refactorThreshold + 1))
      p.refactorThreshold = false)
    (hbot : copilotBotOf env = some bot)
    (hcur : env.openIssues.filter (fun issue =>
      issue.assignees.any (fun assignee => assignee.id = bot.id)) = [])
    (hnoref : findAssignableIssue (enrichWithSubIssues env env.refactorIssuesAsc)
      p.allowParentIssues p.skipLabels = none)
    (hcreate : p.createRefactorIssue = true)
    (hlabel : env.refactorLabelId = some lid)
    (hdry : p.dryRun = false)
    (hcool : (shouldWaitForCooldown (env.closedDesc.take 20) p.refactorCooldownDays
      env.now).shouldWait = true) :
    executeWorkflow p env =
      (.created env.createdIssue,
        [.createIssue (autoIssueTitle env) env.templateContent [bot.id],
         .addLabel env.createdIssue.id [lid]]) ∧
      executeWorkflow { p with mode := "refactor" } env = (.skipped, []) := by
  have hpc : ∀ m, proceedCheck p env bot.id m = true := by
    intro m
    simp [proceedCheck, hcur]
  have hpc2 : ∀ m, proceedCheck { p with mode := "refactor" } env bot.id m = true := by
    intro m
    simp [proceedCheck, hcur]
  constructor
  · have heff : effectiveModeOf p env = "refactor" := by
      simp [effectiveModeOf, hev, hmode, hthr]
    simp only [executeWorkflow, hbot, heff, hpc, Bool.not_true, Bool.false_eq_true, if_false,
      if_pos rfl]
    simp only [handleRefactorMode, hnoref, hcreate, Bool.not_true, Bool.false_eq_true, if_false]
    simp only [createRefactorIssueFunc, hev, hmode, hlabel, hdry]
    simp
  · have heff2 : effectiveModeOf { p with mode := "refactor" } env = "refactor" := by
      simp [effectiveModeOf]
    simp only [executeWorkflow, hbot, heff2, hpc2, Bool.not_true, Bool.false_eq_true, if_false,
      if_pos rfl]
    simp only [handleRefactorMode, hnoref, hcreate, Bool.not_true, Bool.false_eq_true, if_false]
    simp only [createRefactorIssueFunc, hmode, hcool]
    simp [hcool]

/-- Witness for C4: a history whose last four closed issues carry no
refactor label while an auto-created refactor issue closed "today" sits
within the cooldown window: the threshold-triggered run creates, the
explicit-refactor run is blocked. -/
theorem threshold_refactor_bypasses_cooldown_witness :
    executeWorkflow paramsA envA =
      (.created envA.createdIssue,
        [.createIssue (autoIssueTitle envA) envA.templateContent ["copilot-bot-id-123"],
         .addLabel envA.createdIssue.id ["label-refactor-id"]]) ∧
      executeWorkflow { paramsA with mode := "refactor" } envA = (.skipped, []) :=
  threshold_refactor_bypasses_cooldown paramsA envA copilotActor "label-refactor-id"
    rfl rfl (by decide) (by decide) (by decide) (by decide) rfl rfl rfl (by decide)
